import Mathlib

/-!
Verification of listen-gp735t (src/main.rs).

The firmware relays GPS bytes: the USART1 interrupt handler reads the GPS
receive register and enqueues non-null bytes into a bounded single-producer
single-consumer queue (heapless::spsc::Queue<u16, 64>), enabling the USART2
TXE interrupt on a successful enqueue; the USART2 interrupt handler drains
the queue into the USART2 transmit register, disabling the TXE interrupt
when the queue runs empty, and interprets inbound bytes on USART2 as GPIO
commands (ASCII 0 resets pin A12 via BSRR, ASCII 1 sets it).  Both handlers
clear their receiver-overrun flag.

The shallow embedding below models each hardware-visible register the
handlers touch, the heapless ring buffer, and the two handlers as pure
state transformers; logs record the values written to the USART2 transmit
register and the GPIOA BSRR operations performed.
-/

/-- The bounded queue of the source: heapless spsc Queue with const
generic N = 64 (static BUFFER in main.rs).  heapless represents it as a
ring buffer with N slots and head/tail indices kept in the range 0..N by
the increment function (i + 1) % N; the queue is empty when head == tail
and full when (tail + 1) % N == head, so it holds at most N - 1 = 63
elements (its documented capacity is N - 1). -/
structure Queue64 where
  head : Nat
  tail : Nat
  storage : List Nat
deriving DecidableEq, Repr

/-- heapless increment: indices advance by (i + 1) % N with N = 64. -/
def Queue64.increment (v : Nat) : Nat := (v + 1) % 64

/-- Queue::default(): head = tail = 0, 64 uninitialized slots (modelled
as zeroes; uninitialized slots are never read). -/
def Queue64.empty : Queue64 :=
  { head := 0, tail := 0, storage := List.replicate 64 0 }

/-- heapless is_empty: head == tail. -/
def Queue64.isEmpty (q : Queue64) : Bool := q.head == q.tail

/-- heapless is_full: increment(tail) == head. -/
def Queue64.isFull (q : Queue64) : Bool := Queue64.increment q.tail == q.head

/-- Number of elements held, as heapless len computes it for in-range
head/tail indices. -/
def Queue64.len (q : Queue64) : Nat := (q.tail + 64 - q.head) % 64

/-- heapless enqueue: if the queue is full return Err (modelled none);
otherwise write the value at tail, advance tail, return Ok. -/
def Queue64.enqueue (q : Queue64) (v : Nat) : Option Queue64 :=
  if q.isFull then none
  else some { q with storage := q.storage.set q.tail v,
                     tail := Queue64.increment q.tail }

/-- heapless dequeue: if the queue is empty return None; otherwise read
the slot at head, advance head, return Some value. -/
def Queue64.dequeue (q : Queue64) : Option (Nat × Queue64) :=
  if q.isEmpty then none
  else some (q.storage.getD q.head 0,
             { q with head := Queue64.increment q.head })

/-- The FIFO contents of the ring buffer, oldest first. -/
def Queue64.toList (q : Queue64) : List Nat :=
  (List.range q.len).map (fun i => q.storage.getD ((q.head + i) % 64) 0)

/-- Well-formedness of the ring-buffer representation: indices in range
and exactly 64 slots.  Holds for Queue::default() and is preserved by
enqueue and dequeue. -/
def Queue64.WF (q : Queue64) : Prop :=
  q.head < 64 ∧ q.tail < 64 ∧ q.storage.length = 64

instance (q : Queue64) : Decidable q.WF := by
  unfold Queue64.WF; infer_instance

/-- USART1 registers read or written by the handlers: ISR.RXNE, RDR
(9-bit data field, read clears RXNE), ISR.ORE (write of ICR.ORECF
clears it). -/
structure Usart1Regs where
  rxne : Bool
  rdr : Nat
  ore : Bool
deriving DecidableEq, Repr

/-- USART2 registers read or written by the handlers: ISR.TXE, ISR.RXNE,
RDR (read clears RXNE), TDR (write clears TXE), ISR.ORE, and the CR1
TXEIE transmit-interrupt enable bit. -/
structure Usart2Regs where
  txe : Bool
  rxne : Bool
  rdr : Nat
  ore : Bool
  txeie : Bool
deriving DecidableEq, Repr

/-- A hardware write that can drive pin A12.  The source only ever issues
BSRR single-bit set/reset writes (gpioa.bsrr.write with bs12 or br12);
the read-modify-write alternative (an ODR modify of the whole port) is
included so that its absence is expressible. -/
inductive PinOp where
  | bsrrSet12
  | bsrrReset12
  | odrReadModifyWrite
deriving DecidableEq, Repr

/-- Whether a pin write is an atomic single-bit BSRR set-or-reset. -/
def PinOp.isAtomicSetReset : PinOp → Bool
  | PinOp.bsrrSet12 => true
  | PinOp.bsrrReset12 => true
  | PinOp.odrReadModifyWrite => false

/-- The state the two interrupt handlers operate on: the registers of the
two USARTs, the shared queue (static BUFFER), the logical level of pin
A12, the log of GPIOA pin writes, and the log of values written to the
USART2 transmit register (the outbound byte stream). -/
structure Sys where
  usart1 : Usart1Regs
  usart2 : Usart2Regs
  buffer : Queue64
  gpioaPin12 : Bool
  pinOps : List PinOp
  txOut : List Nat
deriving DecidableEq, Repr

/-- The receive branch of the USART1 handler: if ISR.RXNE is set, read
RDR (clearing RXNE); if the received byte is not the null byte, enqueue
it, and on success enable the USART2 TXE interrupt; a full queue drops
the byte silently. -/
def usart1RxBranch (s : Sys) : Sys :=
  if s.usart1.rxne then
    let received_byte := s.usart1.rdr
    let s1 := { s with usart1 := { s.usart1 with rxne := false } }
    if received_byte ≠ 0 then
      match s1.buffer.enqueue received_byte with
      | some q =>
          { s1 with buffer := q,
                    usart2 := { s1.usart2 with txeie := true } }
      | none => s1
    else s1
  else s

/-- The overrun branch of the USART1 handler: if ISR.ORE is set, write
ICR.ORECF, clearing the overrun flag. -/
def usart1OreBranch (s : Sys) : Sys :=
  if s.usart1.ore then { s with usart1 := { s.usart1 with ore := false } }
  else s

/-- The USART1 interrupt handler (fn USART1 in main.rs): receive branch
then overrun branch. -/
def USART1 (s : Sys) : Sys := usart1OreBranch (usart1RxBranch s)

/-- The transmit branch of the USART2 handler: if ISR.TXE is set, dequeue;
on Some, write the byte to TDR (a 9-bit field, so the stored value is
taken mod 512; writing clears TXE) and disable the TXE interrupt if the
queue is now empty; on None, disable the TXE interrupt. -/
def usart2TxeBranch (s : Sys) : Sys :=
  if s.usart2.txe then
    match s.buffer.dequeue with
    | some (byte, q) =>
        let s1 := { s with buffer := q,
                           txOut := s.txOut ++ [byte % 512],
                           usart2 := { s.usart2 with txe := false } }
        if q.isEmpty then
          { s1 with usart2 := { s1.usart2 with txeie := false } }
        else s1
    | none => { s with usart2 := { s.usart2 with txeie := false } }
  else s

/-- The receive branch of the USART2 handler: if ISR.RXNE is set, read
RDR (clearing RXNE); ASCII 0 (48) resets pin A12 through BSRR.BR12,
ASCII 1 (49) sets it through BSRR.BS12, any other value does nothing. -/
def usart2RxBranch (s : Sys) : Sys :=
  if s.usart2.rxne then
    let received_byte := s.usart2.rdr
    let s1 := { s with usart2 := { s.usart2 with rxne := false } }
    if received_byte = 48 then
      { s1 with gpioaPin12 := false,
                pinOps := s1.pinOps ++ [PinOp.bsrrReset12] }
    else if received_byte = 49 then
      { s1 with gpioaPin12 := true,
                pinOps := s1.pinOps ++ [PinOp.bsrrSet12] }
    else s1
  else s

/-- The overrun branch of the USART2 handler: if ISR.ORE is set, write
ICR.ORECF, clearing the overrun flag. -/
def usart2OreBranch (s : Sys) : Sys :=
  if s.usart2.ore then { s with usart2 := { s.usart2 with ore := false } }
  else s

/-- The USART2 interrupt handler (fn USART2 in main.rs): transmit branch,
then receive branch, then overrun branch. -/
def USART2 (s : Sys) : Sys :=
  usart2OreBranch (usart2RxBranch (usart2TxeBranch s))

/-- The state right after main's initialization: queue freshly created
and empty, TXE interrupt disabled (main enables only RXNE interrupts),
pin A12 at its reset level (low), no receive data pending, no overrun. -/
def initSys : Sys :=
  { usart1 := { rxne := false, rdr := 0, ore := false }
  , usart2 := { txe := false, rxne := false, rdr := 0, ore := false,
                txeie := false }
  , buffer := Queue64.empty
  , gpioaPin12 := false
  , pinOps := []
  , txOut := [] }

/-- One GPS byte arriving on USART1: hardware latches the byte in RDR,
raises RXNE, and the USART1 interrupt fires. -/
def ingestByte (s : Sys) (b : Nat) : Sys :=
  USART1 { s with usart1 := { s.usart1 with rxne := true, rdr := b } }

/-- A burst of GPS bytes arriving on USART1, one interrupt each. -/
def runIngest (s : Sys) (bs : List Nat) : Sys := List.foldl ingestByte s bs

/-- One transmit-ready event on USART2: hardware raises TXE and the
USART2 interrupt fires. -/
def dispatchTxStep (s : Sys) : Sys :=
  USART2 { s with usart2 := { s.usart2 with txe := true } }

/-- n consecutive transmit-ready events on USART2. -/
def runDrain (s : Sys) : Nat → Sys
  | 0 => s
  | n + 1 => runDrain (dispatchTxStep s) n

/-- The effect of a burst of pushes on the abstract queue contents: each
byte is appended when fewer than 63 elements are held and dropped
otherwise (the saturation policy of the ingest path). -/
def pushDropAll (t : List Nat) (bs : List Nat) : List Nat :=
  List.foldl (fun acc b => if acc.length < 63 then acc ++ [b] else acc) t bs

/-- 65 distinct non-null bytes: 1, 2, ..., 65 (capacity + 1 according to
the specification, which takes the capacity to be 64). -/
def bytes65 : List Nat := (List.range 65).map (fun i => i + 1)

/-- A state with RXNE pending on USART1 carrying byte 7, queue empty. -/
def pushReadyState : Sys :=
  { initSys with usart1 := { rxne := true, rdr := 7, ore := false } }

/-- A state with TXE pending on USART2 and exactly one queued byte (5). -/
def lastPopState : Sys :=
  { initSys with
      usart2 := { txe := true, rxne := false, rdr := 0, ore := false,
                  txeie := true }
    , buffer := { head := 0, tail := 1,
                  storage := (List.replicate 64 0).set 0 5 } }

/-- A state with TXE pending on USART2 and an empty queue, with the TXE
interrupt still (spuriously) enabled. -/
def emptyPopState : Sys :=
  { initSys with
      usart2 := { txe := true, rxne := false, rdr := 0, ore := false,
                  txeie := true } }

/-- A state with a command byte pending on USART2. -/
def cmdState (v : Nat) : Sys :=
  { initSys with
      usart2 := { txe := false, rxne := true, rdr := v, ore := false,
                  txeie := false } }

/-- A state with a pending USART1 byte and the ORE flag asserted. -/
def oreState1 : Sys :=
  { initSys with usart1 := { rxne := true, rdr := 9, ore := true } }

/-- A state with a pending USART2 command byte and the ORE flag
asserted. -/
def oreState2 : Sys :=
  { initSys with
      usart2 := { txe := false, rxne := true, rdr := 49, ore := true,
                  txeie := false } }

/-! ### Ring-buffer abstraction lemmas -/

theorem Queue64.toList_length (q : Queue64) : q.toList.length = q.len := by
  simp [Queue64.toList]

theorem Queue64.len_lt (q : Queue64) : q.len < 64 :=
  Nat.mod_lt _ (by omega)

theorem Queue64.empty_wf : Queue64.empty.WF := by
  refine ⟨by simp [Queue64.empty], by simp [Queue64.empty], ?_⟩
  simp [Queue64.empty]

theorem Queue64.empty_toList : Queue64.empty.toList = [] := by
  simp [Queue64.toList, Queue64.empty, Queue64.len]

theorem Queue64.isFull_iff (q : Queue64) (hwf : q.WF) :
    q.isFull = true ↔ q.len = 63 := by
  obtain ⟨h1, h2, h3⟩ := hwf
  simp only [Queue64.isFull, Queue64.increment, Queue64.len, beq_iff_eq]
  omega

theorem Queue64.isEmpty_iff (q : Queue64) (hwf : q.WF) :
    q.isEmpty = true ↔ q.len = 0 := by
  obtain ⟨h1, h2, h3⟩ := hwf
  simp only [Queue64.isEmpty, Queue64.len, beq_iff_eq]
  omega

theorem Queue64.getD_set_ne (l : List Nat) (i j v d : Nat) (hij : i ≠ j) :
    (l.set i v).getD j d = l.getD j d := by
  by_cases hj : j < l.length
  · rw [List.getD_eq_getElem _ _ (by simpa), List.getD_eq_getElem _ _ hj]
    exact List.getElem_set_ne hij _
  · rw [List.getD_eq_default _ _ (by simpa using hj),
        List.getD_eq_default _ _ (by omega)]

theorem Queue64.enqueue_full (q : Queue64) (v : Nat) (hfull : q.isFull = true) :
    q.enqueue v = none := by
  simp [Queue64.enqueue, hfull]

theorem Queue64.enqueue_spec (q : Queue64) (v : Nat) (hwf : q.WF)
    (hfull : q.isFull = false) :
    ∃ q2, q.enqueue v = some q2 ∧ q2.WF ∧ q2.toList = q.toList ++ [v] := by
  obtain ⟨h1, h2, h3⟩ := hwf
  have hne : (q.tail + 1) % 64 ≠ q.head := by
    simpa [Queue64.isFull, Queue64.increment] using hfull
  refine ⟨{ q with storage := q.storage.set q.tail v,
                   tail := Queue64.increment q.tail }, ?_, ?_, ?_⟩
  · simp [Queue64.enqueue, hfull]
  · exact ⟨h1, by simp [Queue64.increment]; omega, by simpa using h3⟩
  · have hlen2 : (((q.tail + 1) % 64) + 64 - q.head) % 64
        = (q.tail + 64 - q.head) % 64 + 1 := by omega
    have htail : (q.head + (q.tail + 64 - q.head) % 64) % 64 = q.tail := by omega
    simp only [Queue64.toList, Queue64.len, Queue64.increment, hlen2]
    rw [List.range_succ, List.map_append]
    congr 1
    · apply List.map_eq_map_iff.mpr
      intro i hi
      have hi2 : i < (q.tail + 64 - q.head) % 64 := List.mem_range.mp hi
      exact Queue64.getD_set_ne _ _ _ _ _ (by omega)
    · have hb : q.tail < (q.storage.set q.tail v).length := by
        simp [h3, h2]
      rw [List.map_cons, List.map_nil, htail,
          List.getD_eq_getElem _ _ hb]
      simp [List.getElem_set_self, h3, h2]

theorem Queue64.dequeue_none (q : Queue64) (he : q.isEmpty = true) :
    q.dequeue = none := by
  simp [Queue64.dequeue, he]

theorem Queue64.dequeue_spec (q : Queue64) (hwf : q.WF)
    (hne : q.isEmpty = false) :
    ∃ x q2, q.dequeue = some (x, q2) ∧ q2.WF
      ∧ q.toList = x :: q2.toList ∧ q2.len = q.len - 1 := by
  obtain ⟨h1, h2, h3⟩ := hwf
  have hht : q.head ≠ q.tail := by
    simpa [Queue64.isEmpty] using hne
  refine ⟨q.storage.getD q.head 0,
          { q with head := Queue64.increment q.head }, ?_, ?_, ?_, ?_⟩
  · simp [Queue64.dequeue, hne]
  · exact ⟨by simp [Queue64.increment]; omega, h2, h3⟩
  · have hlen : q.len = (q.len - 1) + 1 := by
      have : q.len ≠ 0 := by simp only [Queue64.len]; omega
      omega
    have hlen2 : (((q.head + 1) % 64) : Nat) < 64 := by omega
    have hq2len : (q.tail + 64 - (q.head + 1) % 64) % 64 = q.len - 1 := by
      simp only [Queue64.len] at hlen ⊢
      omega
    simp only [Queue64.toList, Queue64.increment, Queue64.len] at hq2len ⊢
    simp only [Queue64.len] at hlen
    rw [hq2len, hlen, List.range_succ_eq_map, List.map_cons, List.map_map]
    congr 1
    · simp [Nat.mod_eq_of_lt h1]
    · apply List.map_eq_map_iff.mpr
      intro i hi
      have hi2 : i < (q.tail + 64 - q.head) % 64 - 1 := List.mem_range.mp hi
      have hidx : ((q.head + 1) % 64 + i) % 64 = (q.head + (i + 1)) % 64 := by
        omega
      simp [Function.comp, hidx]
  · simp only [Queue64.len, Queue64.increment]
    have : q.len ≠ 0 := by simp only [Queue64.len]; omega
    simp only [Queue64.len] at this
    omega

/-! ### Frame lemmas for the handler branches -/

theorem usart1OreBranch_frame (s : Sys) :
    (usart1OreBranch s).buffer = s.buffer
    ∧ (usart1OreBranch s).usart2 = s.usart2
    ∧ (usart1OreBranch s).gpioaPin12 = s.gpioaPin12
    ∧ (usart1OreBranch s).pinOps = s.pinOps
    ∧ (usart1OreBranch s).txOut = s.txOut
    ∧ (usart1OreBranch s).usart1.rxne = s.usart1.rxne
    ∧ (usart1OreBranch s).usart1.rdr = s.usart1.rdr := by
  by_cases h : s.usart1.ore <;> simp [usart1OreBranch, h]

theorem usart1OreBranch_ore (s : Sys) (h : s.usart1.ore = false) :
    (usart1OreBranch s).usart1.ore = false := by
  simp [usart1OreBranch, h]

theorem usart2OreBranch_frame (s : Sys) :
    (usart2OreBranch s).buffer = s.buffer
    ∧ (usart2OreBranch s).usart1 = s.usart1
    ∧ (usart2OreBranch s).gpioaPin12 = s.gpioaPin12
    ∧ (usart2OreBranch s).pinOps = s.pinOps
    ∧ (usart2OreBranch s).txOut = s.txOut
    ∧ (usart2OreBranch s).usart2.rxne = s.usart2.rxne
    ∧ (usart2OreBranch s).usart2.rdr = s.usart2.rdr
    ∧ (usart2OreBranch s).usart2.txe = s.usart2.txe
    ∧ (usart2OreBranch s).usart2.txeie = s.usart2.txeie := by
  by_cases h : s.usart2.ore <;> simp [usart2OreBranch, h]

theorem usart2RxBranch_frame (s : Sys) :
    (usart2RxBranch s).buffer = s.buffer
    ∧ (usart2RxBranch s).txOut = s.txOut
    ∧ (usart2RxBranch s).usart1 = s.usart1
    ∧ (usart2RxBranch s).usart2.txeie = s.usart2.txeie
    ∧ (usart2RxBranch s).usart2.txe = s.usart2.txe
    ∧ (usart2RxBranch s).usart2.ore = s.usart2.ore := by
  by_cases h : s.usart2.rxne <;>
    by_cases h48 : s.usart2.rdr = 48 <;>
    by_cases h49 : s.usart2.rdr = 49 <;>
    simp [usart2RxBranch, h, h48, h49]

theorem usart2RxBranch_quiet (s : Sys) (h : s.usart2.rxne = false) :
    usart2RxBranch s = s := by
  simp [usart2RxBranch, h]

theorem usart1RxBranch_frame (s : Sys) :
    (usart1RxBranch s).gpioaPin12 = s.gpioaPin12
    ∧ (usart1RxBranch s).pinOps = s.pinOps
    ∧ (usart1RxBranch s).txOut = s.txOut
    ∧ (usart1RxBranch s).usart1.ore = s.usart1.ore
    ∧ (usart1RxBranch s).usart2.txe = s.usart2.txe
    ∧ (usart1RxBranch s).usart2.rxne = s.usart2.rxne
    ∧ (usart1RxBranch s).usart2.rdr = s.usart2.rdr
    ∧ (usart1RxBranch s).usart2.ore = s.usart2.ore := by
  by_cases h : s.usart1.rxne <;>
    by_cases h0 : s.usart1.rdr = 0 <;>
    by_cases hf : s.buffer.isFull <;>
    simp [usart1RxBranch, h, h0, Queue64.enqueue, hf]

theorem usart2TxeBranch_frame (s : Sys) :
    (usart2TxeBranch s).gpioaPin12 = s.gpioaPin12
    ∧ (usart2TxeBranch s).pinOps = s.pinOps
    ∧ (usart2TxeBranch s).usart1 = s.usart1
    ∧ (usart2TxeBranch s).usart2.rxne = s.usart2.rxne
    ∧ (usart2TxeBranch s).usart2.rdr = s.usart2.rdr
    ∧ (usart2TxeBranch s).usart2.ore = s.usart2.ore := by
  by_cases h : s.usart2.txe
  · rcases hd : s.buffer.dequeue with _ | ⟨b, q⟩
    · simp [usart2TxeBranch, h, hd]
    · by_cases he : q.isEmpty <;> simp [usart2TxeBranch, h, hd, he]
  · simp [usart2TxeBranch, h]

/-! ### Behaviour of bursts of interrupts -/

/-- Canonical form of the USART1 receive branch when a non-null byte is
accepted by the queue. -/
theorem usart1RxBranch_enq (s : Sys) (q2 : Queue64)
    (h : s.usart1.rxne = true) (hb : s.usart1.rdr ≠ 0)
    (henq : s.buffer.enqueue s.usart1.rdr = some q2) :
    usart1RxBranch s
      = { s with usart1 := { s.usart1 with rxne := false },
                 buffer := q2,
                 usart2 := { s.usart2 with txeie := true } } := by
  simp [usart1RxBranch, h, hb, henq]

/-- Canonical form of the USART1 receive branch when the queue is full:
only RXNE is cleared, the byte is dropped. -/
theorem usart1RxBranch_full (s : Sys)
    (h : s.usart1.rxne = true) (hb : s.usart1.rdr ≠ 0)
    (henq : s.buffer.enqueue s.usart1.rdr = none) :
    usart1RxBranch s = { s with usart1 := { s.usart1 with rxne := false } } := by
  simp [usart1RxBranch, h, hb, henq]

/-- Canonical form of the USART1 receive branch on the null byte: only
RXNE is cleared, nothing is enqueued. -/
theorem usart1RxBranch_null (s : Sys)
    (h : s.usart1.rxne = true) (hb : s.usart1.rdr = 0) :
    usart1RxBranch s = { s with usart1 := { s.usart1 with rxne := false } } := by
  simp [usart1RxBranch, h, hb]

theorem usart1RxBranch_idle (s : Sys) (h : s.usart1.rxne = false) :
    usart1RxBranch s = s := by
  simp [usart1RxBranch, h]

/-- The USART1 overrun branch always leaves the ORE flag clear and
changes nothing else. -/
theorem usart1OreBranch_eq (s : Sys) :
    usart1OreBranch s
      = { s with usart1 := { s.usart1 with ore := false } } := by
  cases s with
  | mk u1 u2 buf pin ops tx =>
    cases u1 with
    | mk rx rdr ore =>
      cases ore <;> simp [usart1OreBranch]

/-- The USART2 overrun branch always leaves the ORE flag clear and
changes nothing else. -/
theorem usart2OreBranch_eq (s : Sys) :
    usart2OreBranch s
      = { s with usart2 := { s.usart2 with ore := false } } := by
  cases s with
  | mk u1 u2 buf pin ops tx =>
    cases u2 with
    | mk txe rx rdr ore txeie =>
      cases ore <;> simp [usart2OreBranch]

/-- Canonical form of the USART2 transmit branch when the queue is empty:
the TXE interrupt is disabled. -/
theorem usart2TxeBranch_none (s : Sys) (ht : s.usart2.txe = true)
    (hd : s.buffer.dequeue = none) :
    usart2TxeBranch s
      = { s with usart2 := { s.usart2 with txeie := false } } := by
  simp [usart2TxeBranch, ht, hd]

/-- Canonical form of the USART2 transmit branch when a byte is dequeued
and the queue becomes empty: the byte goes to TDR and the TXE interrupt
is disabled. -/
theorem usart2TxeBranch_some_empty (s : Sys) (b : Nat) (q : Queue64)
    (ht : s.usart2.txe = true) (hd : s.buffer.dequeue = some (b, q))
    (he : q.isEmpty = true) :
    usart2TxeBranch s
      = { s with buffer := q,
                 txOut := s.txOut ++ [b % 512],
                 usart2 := { s.usart2 with txe := false, txeie := false } } := by
  simp [usart2TxeBranch, ht, hd, he]

/-- Canonical form of the USART2 transmit branch when a byte is dequeued
and more bytes remain: the byte goes to TDR, TXEIE is untouched. -/
theorem usart2TxeBranch_some_nonempty (s : Sys) (b : Nat) (q : Queue64)
    (ht : s.usart2.txe = true) (hd : s.buffer.dequeue = some (b, q))
    (he : q.isEmpty = false) :
    usart2TxeBranch s
      = { s with buffer := q,
                 txOut := s.txOut ++ [b % 512],
                 usart2 := { s.usart2 with txe := false } } := by
  simp [usart2TxeBranch, ht, hd, he]

theorem usart2TxeBranch_idle (s : Sys) (ht : s.usart2.txe = false) :
    usart2TxeBranch s = s := by
  simp [usart2TxeBranch, ht]

theorem ingestByte_spec (s : Sys) (b : Nat) (hwf : s.buffer.WF) (hb : b ≠ 0) :
    (ingestByte s b).buffer.WF
    ∧ (ingestByte s b).buffer.toList =
        (if s.buffer.toList.length < 63 then s.buffer.toList ++ [b]
         else s.buffer.toList)
    ∧ (ingestByte s b).txOut = s.txOut
    ∧ (ingestByte s b).gpioaPin12 = s.gpioaPin12
    ∧ (ingestByte s b).pinOps = s.pinOps
    ∧ (ingestByte s b).usart2.txe = s.usart2.txe
    ∧ (ingestByte s b).usart2.rxne = s.usart2.rxne
    ∧ (ingestByte s b).usart2.rdr = s.usart2.rdr
    ∧ (ingestByte s b).usart2.ore = s.usart2.ore := by
  have hlist : s.buffer.toList.length = s.buffer.len :=
    Queue64.toList_length s.buffer
  have hstep : ingestByte s b
      = usart1OreBranch (usart1RxBranch
          { s with usart1 := { s.usart1 with rxne := true, rdr := b } }) := rfl
  by_cases hf : s.buffer.isFull
  · have h63 : s.buffer.len = 63 := (Queue64.isFull_iff s.buffer hwf).mp hf
    have hnc : ¬ s.buffer.toList.length < 63 := by omega
    have henq : s.buffer.enqueue b = none := Queue64.enqueue_full s.buffer b hf
    rw [hstep, usart1RxBranch_full _ (by simp) (by simpa using hb)
          (by simpa using henq), usart1OreBranch_eq]
    simp [hnc, hwf]
  · have hflt : s.buffer.len < 63 := by
      have hlt := Queue64.len_lt s.buffer
      have hiff := Queue64.isFull_iff s.buffer hwf
      simp [hf] at hiff
      omega
    obtain ⟨q2, henq, hwf2, hto⟩ :=
      Queue64.enqueue_spec s.buffer b hwf (by simpa using hf)
    have hcond : s.buffer.toList.length < 63 := by omega
    rw [hstep, usart1RxBranch_enq _ q2 (by simp) (by simpa using hb)
          (by simpa using henq), usart1OreBranch_eq]
    simp [hcond, hwf2, hto]

theorem runIngest_spec (bs : List Nat) (s : Sys) (hwf : s.buffer.WF)
    (hbs : ∀ b ∈ bs, b ≠ 0) :
    (runIngest s bs).buffer.WF
    ∧ (runIngest s bs).buffer.toList = pushDropAll s.buffer.toList bs
    ∧ (runIngest s bs).txOut = s.txOut
    ∧ (runIngest s bs).gpioaPin12 = s.gpioaPin12
    ∧ (runIngest s bs).pinOps = s.pinOps
    ∧ (runIngest s bs).usart2.txe = s.usart2.txe
    ∧ (runIngest s bs).usart2.rxne = s.usart2.rxne
    ∧ (runIngest s bs).usart2.rdr = s.usart2.rdr
    ∧ (runIngest s bs).usart2.ore = s.usart2.ore := by
  induction bs generalizing s with
  | nil => exact ⟨hwf, rfl, rfl, rfl, rfl, rfl, rfl, rfl, rfl⟩
  | cons b bs ih =>
    obtain ⟨hwf1, hto1, htx1, hp1, hops1, ha1, hb1, hc1, hd1⟩ :=
      ingestByte_spec s b hwf (hbs b (by simp))
    obtain ⟨hwf2, hto2, htx2, hp2, hops2, ha2, hb2, hc2, hd2⟩ :=
      ih (ingestByte s b) hwf1 (fun x hx => hbs x (by simp [hx]))
    have hrun : runIngest s (b :: bs) = runIngest (ingestByte s b) bs := rfl
    have hpush : pushDropAll s.buffer.toList (b :: bs)
        = pushDropAll (if s.buffer.toList.length < 63
                       then s.buffer.toList ++ [b] else s.buffer.toList) bs := by
      by_cases h : s.buffer.toList.length < 63 <;> simp [pushDropAll, h]
    rw [hrun, hpush, ← hto1]
    exact ⟨hwf2, hto2, by rw [htx2, htx1], by rw [hp2, hp1],
           by rw [hops2, hops1], by rw [ha2, ha1], by rw [hb2, hb1],
           by rw [hc2, hc1], by rw [hd2, hd1]⟩

theorem pushDropAll_eq_take (bs : List Nat) (t : List Nat)
    (ht : t.length ≤ 63) :
    pushDropAll t bs = t ++ List.take (63 - t.length) bs := by
  induction bs generalizing t with
  | nil => simp [pushDropAll]
  | cons b bs ih =>
    by_cases h : t.length < 63
    · have hstep : pushDropAll t (b :: bs) = pushDropAll (t ++ [b]) bs := by
        simp [pushDropAll, h]
      have hih := ih (t ++ [b]) (by simp; omega)
      rw [hstep, hih]
      have hn : 63 - t.length = (63 - (t ++ [b]).length) + 1 := by
        simp; omega
      rw [hn, List.take_succ_cons]
      simp
    · have h63 : t.length = 63 := by omega
      have hstep : pushDropAll t (b :: bs) = pushDropAll t bs := by
        simp [pushDropAll, h]
      rw [hstep, ih t ht, h63]
      simp

theorem dispatchTxStep_empty (s : Sys) (hwf : s.buffer.WF)
    (hrx : s.usart2.rxne = false) (he : s.buffer.toList = []) :
    (dispatchTxStep s).buffer = s.buffer
    ∧ (dispatchTxStep s).txOut = s.txOut
    ∧ (dispatchTxStep s).usart2.txeie = false
    ∧ (dispatchTxStep s).usart2.rxne = false
    ∧ (dispatchTxStep s).gpioaPin12 = s.gpioaPin12
    ∧ (dispatchTxStep s).pinOps = s.pinOps := by
  have hlen : s.buffer.len = 0 := by
    have hll := Queue64.toList_length s.buffer
    rw [he] at hll
    simpa using hll.symm
  have hemp : s.buffer.isEmpty = true :=
    (Queue64.isEmpty_iff s.buffer hwf).mpr hlen
  have hdq : s.buffer.dequeue = none := Queue64.dequeue_none _ hemp
  have hstep : dispatchTxStep s
      = usart2OreBranch (usart2RxBranch (usart2TxeBranch
          { s with usart2 := { s.usart2 with txe := true } })) := rfl
  have h1 : usart2TxeBranch { s with usart2 := { s.usart2 with txe := true } }
      = { s with usart2 := { s.usart2 with txe := true, txeie := false } } := by
    apply usart2TxeBranch_none
    · simp
    · simpa using hdq
  have h2 : usart2RxBranch
        { s with usart2 := { s.usart2 with txe := true, txeie := false } }
      = { s with usart2 := { s.usart2 with txe := true, txeie := false } } :=
    usart2RxBranch_quiet _ (by simpa using hrx)
  rw [hstep, h1, h2, usart2OreBranch_eq]
  simp [hrx]

theorem dispatchTxStep_cons (s : Sys) (x : Nat) (xs : List Nat)
    (hwf : s.buffer.WF) (hrx : s.usart2.rxne = false)
    (hc : s.buffer.toList = x :: xs) :
    (dispatchTxStep s).buffer.WF
    ∧ (dispatchTxStep s).buffer.toList = xs
    ∧ (dispatchTxStep s).txOut = s.txOut ++ [x % 512]
    ∧ (dispatchTxStep s).usart2.txeie =
        (if xs = [] then false else s.usart2.txeie)
    ∧ (dispatchTxStep s).usart2.rxne = false
    ∧ (dispatchTxStep s).gpioaPin12 = s.gpioaPin12
    ∧ (dispatchTxStep s).pinOps = s.pinOps := by
  have hlenlist : s.buffer.toList.length = s.buffer.len :=
    Queue64.toList_length s.buffer
  have hlen : s.buffer.len = xs.length + 1 := by
    rw [← hlenlist, hc]; simp
  have hne : s.buffer.isEmpty = false := by
    rcases hb : s.buffer.isEmpty with _ | _
    · rfl
    · have h0 := (Queue64.isEmpty_iff s.buffer hwf).mp hb
      omega
  obtain ⟨y, q2, hdq, hwf2, hto, hlen2⟩ := Queue64.dequeue_spec s.buffer hwf hne
  rw [hc] at hto
  obtain ⟨hy, hxs⟩ : y = x ∧ q2.toList = xs := by
    injection hto with h1a h1b
    exact ⟨h1a.symm, h1b.symm⟩
  have hq2len : q2.len = xs.length := by
    have hql := Queue64.toList_length q2
    rw [hxs] at hql
    exact hql.symm
  have hstep : dispatchTxStep s
      = usart2OreBranch (usart2RxBranch (usart2TxeBranch
          { s with usart2 := { s.usart2 with txe := true } })) := rfl
  rcases hxs3 : xs with _ | ⟨z, zs⟩
  · have hq2emp : q2.isEmpty = true := by
      apply (Queue64.isEmpty_iff q2 hwf2).mpr
      rw [hq2len, hxs3]
      rfl
    have h1 : usart2TxeBranch { s with usart2 := { s.usart2 with txe := true } }
        = { s with buffer := q2,
                   txOut := s.txOut ++ [y % 512],
                   usart2 := { s.usart2 with txe := false, txeie := false } } := by
      apply usart2TxeBranch_some_empty
      · simp
      · simpa using hdq
      · exact hq2emp
    have h2 : usart2RxBranch
          { s with buffer := q2,
                   txOut := s.txOut ++ [y % 512],
                   usart2 := { s.usart2 with txe := false, txeie := false } }
        = { s with buffer := q2,
                   txOut := s.txOut ++ [y % 512],
                   usart2 := { s.usart2 with txe := false, txeie := false } } :=
      usart2RxBranch_quiet _ (by simpa using hrx)
    rw [hstep, h1, h2, usart2OreBranch_eq]
    simp [hwf2, hxs, hy, hxs3, hrx]
  · have hq2emp : q2.isEmpty = false := by
      have hiff := Queue64.isEmpty_iff q2 hwf2
      rcases hb : q2.isEmpty with _ | _
      · rfl
      · rw [hb] at hiff
        have hz : q2.len = 0 := hiff.mp rfl
        rw [hq2len, hxs3] at hz
        simp at hz
    have h1 : usart2TxeBranch { s with usart2 := { s.usart2 with txe := true } }
        = { s with buffer := q2,
                   txOut := s.txOut ++ [y % 512],
                   usart2 := { s.usart2 with txe := false } } := by
      apply usart2TxeBranch_some_nonempty
      · simp
      · simpa using hdq
      · exact hq2emp
    have h2 : usart2RxBranch
          { s with buffer := q2,
                   txOut := s.txOut ++ [y % 512],
                   usart2 := { s.usart2 with txe := false } }
        = { s with buffer := q2,
                   txOut := s.txOut ++ [y % 512],
                   usart2 := { s.usart2 with txe := false } } :=
      usart2RxBranch_quiet _ (by simpa using hrx)
    rw [← hxs3, hstep, h1, h2, usart2OreBranch_eq]
    simp [hwf2, hxs, hy, hxs3, hrx]

theorem runDrain_spec (l : List Nat) (s : Sys) (hwf : s.buffer.WF)
    (hrx : s.usart2.rxne = false) (hl : s.buffer.toList = l) :
    (runDrain s l.length).buffer.toList = []
    ∧ (runDrain s l.length).txOut = s.txOut ++ l.map (fun b => b % 512)
    ∧ (runDrain s l.length).usart2.txeie =
        (if l = [] then s.usart2.txeie else false)
    ∧ (runDrain s l.length).gpioaPin12 = s.gpioaPin12
    ∧ (runDrain s l.length).pinOps = s.pinOps := by
  induction l generalizing s with
  | nil => simp [runDrain, hl]
  | cons x xs ih =>
    obtain ⟨hwf1, hto1, htx1, hie1, hrx1, hp1, hops1⟩ :=
      dispatchTxStep_cons s x xs hwf hrx hl
    obtain ⟨hto2, htx2, hie2, hp2, hops2⟩ :=
      ih (dispatchTxStep s) hwf1 hrx1 hto1
    have hrun : runDrain s (x :: xs).length = runDrain (dispatchTxStep s) xs.length := rfl
    rw [hrun]
    refine ⟨hto2, ?_, ?_, by rw [hp2, hp1], by rw [hops2, hops1]⟩
    · rw [htx2, htx1]
      simp
    · rw [hie2]
      rcases hxs : xs with _ | ⟨z, zs⟩
      · simp [hie1, hxs]
      · simp only [hxs] at hie1 ⊢
        simp [hie1]

/-! ### The ORE flag does not influence the rest of the state -/

theorem usart1RxBranch_ore_comm (s : Sys) :
    usart1RxBranch { s with usart1 := { s.usart1 with ore := false } }
      = { usart1RxBranch s with
            usart1 := { (usart1RxBranch s).usart1 with ore := false } } := by
  rcases h : s.usart1.rxne with _ | _
  · simp [usart1RxBranch, h]
  · by_cases h0 : s.usart1.rdr = 0
    · simp [usart1RxBranch, h, h0]
    · rcases he : s.buffer.enqueue s.usart1.rdr with _ | q2 <;>
        simp [usart1RxBranch, h, h0, he]

theorem USART1_ore_irrelevant (s : Sys) :
    USART1 { s with usart1 := { s.usart1 with ore := false } } = USART1 s := by
  have h1 : USART1 s = usart1OreBranch (usart1RxBranch s) := rfl
  have h2 : USART1 { s with usart1 := { s.usart1 with ore := false } }
      = usart1OreBranch (usart1RxBranch
          { s with usart1 := { s.usart1 with ore := false } }) := rfl
  rw [h1, h2, usart1RxBranch_ore_comm, usart1OreBranch_eq, usart1OreBranch_eq]

theorem usart2TxeBranch_ore_comm (s : Sys) :
    usart2TxeBranch { s with usart2 := { s.usart2 with ore := false } }
      = { usart2TxeBranch s with
            usart2 := { (usart2TxeBranch s).usart2 with ore := false } } := by
  rcases h : s.usart2.txe with _ | _
  · simp [usart2TxeBranch, h]
  · rcases hd : s.buffer.dequeue with _ | ⟨b, q⟩
    · simp [usart2TxeBranch, h, hd]
    · by_cases he : q.isEmpty <;> simp [usart2TxeBranch, h, hd, he]

theorem usart2RxBranch_ore_comm (s : Sys) :
    usart2RxBranch { s with usart2 := { s.usart2 with ore := false } }
      = { usart2RxBranch s with
            usart2 := { (usart2RxBranch s).usart2 with ore := false } } := by
  rcases h : s.usart2.rxne with _ | _
  · simp [usart2RxBranch, h]
  · by_cases h48 : s.usart2.rdr = 48
    · simp [usart2RxBranch, h, h48]
    · by_cases h49 : s.usart2.rdr = 49 <;> simp [usart2RxBranch, h, h48, h49]

theorem USART2_ore_irrelevant (s : Sys) :
    USART2 { s with usart2 := { s.usart2 with ore := false } } = USART2 s := by
  have h1 : USART2 s
      = usart2OreBranch (usart2RxBranch (usart2TxeBranch s)) := rfl
  have h2 : USART2 { s with usart2 := { s.usart2 with ore := false } }
      = usart2OreBranch (usart2RxBranch (usart2TxeBranch
          { s with usart2 := { s.usart2 with ore := false } })) := rfl
  rw [h1, h2, usart2TxeBranch_ore_comm, usart2RxBranch_ore_comm,
      usart2OreBranch_eq, usart2OreBranch_eq]

theorem USART1_ore_final (s : Sys) : (USART1 s).usart1.ore = false := by
  have h1 : USART1 s = usart1OreBranch (usart1RxBranch s) := rfl
  rw [h1, usart1OreBranch_eq]

theorem USART2_ore_final (s : Sys) : (USART2 s).usart2.ore = false := by
  have h1 : USART2 s
      = usart2OreBranch (usart2RxBranch (usart2TxeBranch s)) := rfl
  rw [h1, usart2OreBranch_eq]

/-! ### Claims -/

/-- C1 (Enable-flag coherence): after any USART1 invocation that pushes
successfully (RXNE set, non-null byte, queue not full) the USART2 TXEIE
flag is Enabled; after a USART2 invocation whose transmit branch pops
the last queued byte the flag is Disabled; and after a USART2 invocation
whose transmit branch finds the queue already empty the flag is
Disabled. -/
theorem enable_flag_coherence :
    (∀ s : Sys, s.usart1.rxne = true → s.usart1.rdr ≠ 0 →
        s.buffer.isFull = false → (USART1 s).usart2.txeie = true)
    ∧ (∀ s : Sys, s.buffer.WF → s.usart2.txe = true → s.buffer.len = 1 →
        (USART2 s).usart2.txeie = false)
    ∧ (∀ s : Sys, s.usart2.txe = true → s.buffer.isEmpty = true →
        (USART2 s).usart2.txeie = false) := by
  refine ⟨?_, ?_, ?_⟩
  · intro s h hb hf
    have henq : s.buffer.enqueue s.usart1.rdr
        = some { s.buffer with
                   storage := s.buffer.storage.set s.buffer.tail s.usart1.rdr,
                   tail := Queue64.increment s.buffer.tail } := by
      simp [Queue64.enqueue, hf]
    have h1 : USART1 s = usart1OreBranch (usart1RxBranch s) := rfl
    rw [h1, usart1RxBranch_enq s _ h hb henq, usart1OreBranch_eq]
  · intro s hwf ht hlen1
    have hne : s.buffer.isEmpty = false := by
      rcases hb : s.buffer.isEmpty with _ | _
      · rfl
      · have h0 := (Queue64.isEmpty_iff s.buffer hwf).mp hb
        omega
    obtain ⟨y, q2, hdq, hwf2, hto, hlen2⟩ :=
      Queue64.dequeue_spec s.buffer hwf hne
    have hq2 : q2.isEmpty = true :=
      (Queue64.isEmpty_iff q2 hwf2).mpr (by omega)
    have h1 : USART2 s
        = usart2OreBranch (usart2RxBranch (usart2TxeBranch s)) := rfl
    have e1 := (usart2OreBranch_frame
        (usart2RxBranch (usart2TxeBranch s))).2.2.2.2.2.2.2.2
    have e2 := (usart2RxBranch_frame (usart2TxeBranch s)).2.2.2.1
    rw [h1, e1, e2, usart2TxeBranch_some_empty s y q2 ht hdq hq2]
  · intro s ht hemp
    have hdq : s.buffer.dequeue = none := Queue64.dequeue_none _ hemp
    have h1 : USART2 s
        = usart2OreBranch (usart2RxBranch (usart2TxeBranch s)) := rfl
    have e1 := (usart2OreBranch_frame
        (usart2RxBranch (usart2TxeBranch s))).2.2.2.2.2.2.2.2
    have e2 := (usart2RxBranch_frame (usart2TxeBranch s)).2.2.2.1
    rw [h1, e1, e2, usart2TxeBranch_none s ht hdq]

/-- Witness for C1: the three cases evaluated at concrete states. -/
theorem enable_flag_coherence_witness :
    (USART1 pushReadyState).usart2.txeie = true
    ∧ (USART2 lastPopState).usart2.txeie = false
    ∧ (USART2 emptyPopState).usart2.txeie = false :=
  ⟨enable_flag_coherence.1 pushReadyState (by decide) (by decide) (by decide),
   enable_flag_coherence.2.1 lastPopState (by decide) (by decide) (by decide),
   enable_flag_coherence.2.2 emptyPopState (by decide) (by decide)⟩

/-- C4 (Null filtering): a USART1 invocation whose received byte is the
null byte enqueues nothing, leaves the queue (hence its length)
unchanged, and does not enable the TXEIE flag. -/
theorem null_filtering (s : Sys) (h0 : s.usart1.rdr = 0) :
    (USART1 s).buffer = s.buffer
    ∧ (USART1 s).buffer.len = s.buffer.len
    ∧ (USART1 s).usart2.txeie = s.usart2.txeie := by
  have h1 : USART1 s = usart1OreBranch (usart1RxBranch s) := rfl
  rcases h : s.usart1.rxne with _ | _
  · rw [h1, usart1RxBranch_idle s h, usart1OreBranch_eq]
    simp
  · rw [h1, usart1RxBranch_null s h h0, usart1OreBranch_eq]
    simp

/-- Witness for C4: a null byte pending on USART1 leaves everything
unchanged. -/
theorem null_filtering_witness :
    (USART1 (cmdState 0)).buffer = (cmdState 0).buffer
    ∧ (USART1 (cmdState 0)).usart2.txeie = (cmdState 0).usart2.txeie :=
  ⟨(null_filtering (cmdState 0) (by decide)).1,
   (null_filtering (cmdState 0) (by decide)).2.2⟩

/-- C5 (Command mapping and isolation): in the USART2 receive branch,
ASCII 0 (48) drives pin A12 low, ASCII 1 (49) drives it high, and any
other byte changes neither the pin nor the queue. -/
theorem command_mapping_isolation (s : Sys) (h : s.usart2.rxne = true) :
    (s.usart2.rdr = 48 → (usart2RxBranch s).gpioaPin12 = false)
    ∧ (s.usart2.rdr = 49 → (usart2RxBranch s).gpioaPin12 = true)
    ∧ (s.usart2.rdr ≠ 48 → s.usart2.rdr ≠ 49 →
        (usart2RxBranch s).gpioaPin12 = s.gpioaPin12
        ∧ (usart2RxBranch s).buffer = s.buffer) := by
  refine ⟨?_, ?_, ?_⟩
  · intro h48
    simp [usart2RxBranch, h, h48]
  · intro h49
    by_cases h48 : s.usart2.rdr = 48
    · omega
    · simp [usart2RxBranch, h, h48, h49]
  · intro h48 h49
    simp [usart2RxBranch, h, h48, h49]

/-- Witness for C5: the three command cases at concrete states. -/
theorem command_mapping_isolation_witness :
    (usart2RxBranch (cmdState 48)).gpioaPin12 = false
    ∧ (usart2RxBranch (cmdState 49)).gpioaPin12 = true
    ∧ (usart2RxBranch (cmdState 50)).gpioaPin12 = (cmdState 50).gpioaPin12
    ∧ (usart2RxBranch (cmdState 50)).buffer = (cmdState 50).buffer :=
  ⟨(command_mapping_isolation (cmdState 48) (by decide)).1 (by decide),
   (command_mapping_isolation (cmdState 49) (by decide)).2.1 (by decide),
   ((command_mapping_isolation (cmdState 50) (by decide)).2.2
      (by decide) (by decide)).1,
   ((command_mapping_isolation (cmdState 50) (by decide)).2.2
      (by decide) (by decide)).2⟩

/-- C10 (widened command match): the comparison uses the full widened
receive value, so a value whose low 8 bits are ASCII 0 or 1 but which is
not exactly 48 or 49 (e.g. a 9-bit value with bit 8 set such as 0x130 or
0x131) actuates nothing: pin level, pin-write log and queue are all
unchanged. -/
theorem widened_command_match (s : Sys) (h : s.usart2.rxne = true)
    (_hlow : s.usart2.rdr % 256 = 48 ∨ s.usart2.rdr % 256 = 49)
    (h48 : s.usart2.rdr ≠ 48) (h49 : s.usart2.rdr ≠ 49) :
    (usart2RxBranch s).gpioaPin12 = s.gpioaPin12
    ∧ (usart2RxBranch s).pinOps = s.pinOps
    ∧ (usart2RxBranch s).buffer = s.buffer := by
  simp [usart2RxBranch, h, h48, h49]

/-- Witness for C10: value 0x130 = 304 (low byte ASCII 0, bit 8 set)
does not actuate the pin. -/
theorem widened_command_match_witness :
    (304 % 256 = 48 ∨ 304 % 256 = 49)
    ∧ (usart2RxBranch (cmdState 304)).gpioaPin12 = (cmdState 304).gpioaPin12
    ∧ (usart2RxBranch (cmdState 304)).pinOps = (cmdState 304).pinOps :=
  ⟨by decide,
   (widened_command_match (cmdState 304) (by decide) (by decide)
      (by decide) (by decide)).1,
   (widened_command_match (cmdState 304) (by decide) (by decide)
      (by decide) (by decide)).2.1⟩

/-- C7 as stated is false: an invocation of the USART2 receive branch
with a non-command byte (ASCII A = 65) performs zero pin writes, not
exactly one. -/
theorem pin_write_counterexample :
    ¬ (∀ s : Sys, s.usart2.rxne = true →
        (usart2RxBranch s).pinOps.length = s.pinOps.length + 1) := by
  intro hall
  exact absurd (hall (cmdState 65) (by decide)) (by decide)

/-- C7 amended: each USART2 receive-branch invocation performs at most
one pin write, exactly one precisely when the byte is ASCII 0 or 1, and
every pin write it performs is an atomic single-bit BSRR set or reset,
never a read-modify-write of the port. -/
theorem pin_write_per_invocation (s : Sys) (h : s.usart2.rxne = true)
    (hops : s.pinOps = []) :
    (usart2RxBranch s).pinOps.length ≤ 1
    ∧ ((usart2RxBranch s).pinOps.length = 1
        ↔ (s.usart2.rdr = 48 ∨ s.usart2.rdr = 49))
    ∧ (∀ op ∈ (usart2RxBranch s).pinOps, op.isAtomicSetReset = true) := by
  by_cases h48 : s.usart2.rdr = 48
  · simp [usart2RxBranch, h, h48, hops, PinOp.isAtomicSetReset]
  · by_cases h49 : s.usart2.rdr = 49 <;>
      simp [usart2RxBranch, h, h48, h49, hops, PinOp.isAtomicSetReset]

/-- Witness for the amended C7: an ASCII 1 command performs exactly one
atomic BSRR write. -/
theorem pin_write_per_invocation_witness :
    (usart2RxBranch (cmdState 49)).pinOps.length ≤ 1
    ∧ ((usart2RxBranch (cmdState 49)).pinOps.length = 1
        ↔ ((cmdState 49).usart2.rdr = 48 ∨ (cmdState 49).usart2.rdr = 49))
    ∧ (∀ op ∈ (usart2RxBranch (cmdState 49)).pinOps,
        op.isAtomicSetReset = true) :=
  pin_write_per_invocation (cmdState 49) (by decide) (by decide)

/-- C8 (Overrun clearing): a handler invoked with its link's ORE flag
asserted leaves the flag clear on return, and the clearing has no effect
on the queue, the pin, the pin-write log or the outbound bytes: the
handler computes exactly what it would compute with ORE clear. -/
theorem overrun_clearing :
    (∀ s : Sys, s.usart1.ore = true →
        (USART1 s).usart1.ore = false
        ∧ (USART1 s).buffer
            = (USART1 { s with usart1 := { s.usart1 with ore := false } }).buffer
        ∧ (USART1 s).gpioaPin12
            = (USART1 { s with usart1 := { s.usart1 with ore := false } }).gpioaPin12
        ∧ (USART1 s).pinOps
            = (USART1 { s with usart1 := { s.usart1 with ore := false } }).pinOps
        ∧ (USART1 s).txOut
            = (USART1 { s with usart1 := { s.usart1 with ore := false } }).txOut)
    ∧ (∀ s : Sys, s.usart2.ore = true →
        (USART2 s).usart2.ore = false
        ∧ (USART2 s).buffer
            = (USART2 { s with usart2 := { s.usart2 with ore := false } }).buffer
        ∧ (USART2 s).gpioaPin12
            = (USART2 { s with usart2 := { s.usart2 with ore := false } }).gpioaPin12
        ∧ (USART2 s).pinOps
            = (USART2 { s with usart2 := { s.usart2 with ore := false } }).pinOps
        ∧ (USART2 s).txOut
            = (USART2 { s with usart2 := { s.usart2 with ore := false } }).txOut) := by
  constructor
  · intro s _
    rw [USART1_ore_irrelevant s]
    exact ⟨USART1_ore_final s, rfl, rfl, rfl, rfl⟩
  · intro s _
    rw [USART2_ore_irrelevant s]
    exact ⟨USART2_ore_final s, rfl, rfl, rfl, rfl⟩

/-- Witness for C8: states with ORE asserted on each link. -/
theorem overrun_clearing_witness :
    (USART1 oreState1).usart1.ore = false
    ∧ (USART2 oreState2).usart2.ore = false :=
  ⟨(overrun_clearing.1 oreState1 (by decide)).1,
   (overrun_clearing.2 oreState2 (by decide)).1⟩

set_option maxRecDepth 100000

/-- C2 as stated is false on the code: pushing 65 distinct non-null
bytes from empty yields 63 enqueued items, not 64 — heapless spsc
Queue u16 64 holds at most N - 1 = 63 elements. -/
theorem saturation_drop_counterexample :
    (runIngest initSys bytes65).buffer.len ≠ 64
    ∧ (runIngest initSys bytes65).buffer.len = 63 := by
  constructor
  · decide
  · decide

/-- C2 amended: pushing 65 distinct non-null bytes from an empty queue
with no intervening pops enqueues exactly 63 items (the capacity of the
heapless queue declared with N = 64), namely the first 63 bytes in
original arrival order; the overflow bytes are discarded without
disturbing the enqueued prefix. -/
theorem saturation_drop (bs : List Nat) (hbs : ∀ b ∈ bs, b ≠ 0)
    (hlen : bs.length = 65) :
    (runIngest initSys bs).buffer.toList = bs.take 63
    ∧ (runIngest initSys bs).buffer.len = 63 := by
  obtain ⟨hwf, hto, -, -, -, -, -, -, -⟩ :=
    runIngest_spec bs initSys Queue64.empty_wf hbs
  have h0 : initSys.buffer.toList = [] := Queue64.empty_toList
  rw [h0, pushDropAll_eq_take bs [] (by simp)] at hto
  simp only [List.length_nil, Nat.sub_zero, List.nil_append] at hto
  refine ⟨hto, ?_⟩
  have hll := Queue64.toList_length (runIngest initSys bs).buffer
  rw [hto] at hll
  have hlt : (List.take 63 bs).length = 63 := by
    rw [List.length_take]
    omega
  omega

/-- Witness for the amended C2: the 65 bytes 1..65 leave the queue
holding 1..63. -/
theorem saturation_drop_witness :
    (∀ b ∈ bytes65, b ≠ 0) ∧ bytes65.length = 65
    ∧ (runIngest initSys bytes65).buffer.toList = bytes65.take 63 :=
  ⟨by decide, by decide, (saturation_drop bytes65 (by decide) (by decide)).1⟩

/-- C3 (FIFO order): any sequence of non-null data-link bytes (9-bit
values) short enough not to saturate the queue is transmitted on USART2
in exactly the order it was received on USART1. -/
theorem fifo_order (bs : List Nat) (hnz : ∀ b ∈ bs, b ≠ 0)
    (hbyte : ∀ b ∈ bs, b < 512) (hlen : bs.length ≤ 63) :
    (runDrain (runIngest initSys bs) bs.length).txOut = bs := by
  obtain ⟨hwf, hto, htx, -, -, -, hrxne, -, -⟩ :=
    runIngest_spec bs initSys Queue64.empty_wf hnz
  have h0 : initSys.buffer.toList = [] := Queue64.empty_toList
  rw [h0, pushDropAll_eq_take bs [] (by simp)] at hto
  simp only [List.length_nil, Nat.sub_zero, List.nil_append] at hto
  rw [List.take_of_length_le hlen] at hto
  have hrx0 : (runIngest initSys bs).usart2.rxne = false := by
    rw [hrxne]
    rfl
  obtain ⟨-, htxOut, -, -, -⟩ :=
    runDrain_spec bs (runIngest initSys bs) hwf hrx0 hto
  rw [htxOut, htx]
  have hmap : bs.map (fun b => b % 512) = bs.map id :=
    List.map_eq_map_iff.mpr (fun x hx => Nat.mod_eq_of_lt (hbyte x hx))
  rw [hmap, List.map_id]
  rfl

/-- Witness for C3: the bytes G P S ! are relayed in order. -/
theorem fifo_order_witness :
    (∀ b ∈ ([71, 80, 83, 33] : List Nat), b ≠ 0)
    ∧ (∀ b ∈ ([71, 80, 83, 33] : List Nat), b < 512)
    ∧ ([71, 80, 83, 33] : List Nat).length ≤ 63
    ∧ (runDrain (runIngest initSys [71, 80, 83, 33]) 4).txOut
        = [71, 80, 83, 33] :=
  ⟨by decide, by decide, by decide,
   fifo_order [71, 80, 83, 33] (by decide) (by decide) (by decide)⟩

/-- C6 (End-to-end scenario): injecting G, P, S, null, exclamation on
USART1 from the initial state (empty queue, TXEIE disabled) and then
letting USART2 drain with four TXE events transmits exactly G, P, S,
exclamation (the null dropped), empties the queue, and leaves TXEIE
disabled. -/
theorem end_to_end_scenario :
    (runDrain (runIngest initSys [71, 80, 83, 0, 33]) 4).txOut
        = [71, 80, 83, 33]
    ∧ (runDrain (runIngest initSys [71, 80, 83, 0, 33]) 4).buffer.toList = []
    ∧ (runDrain (runIngest initSys [71, 80, 83, 0, 33]) 4).usart2.txeie
        = false := by
  refine ⟨by decide, by decide, by decide⟩
